import Mathlib

/-!
Shallow embedding of `miniplay.py` (pts/miniplay), a minimalistic ALSA sound
player: it parses command-line flags, derives a sample format, pregenerates one
second of stereo PCM audio for a selected tune, asserts the buffer length, and
streams the buffer to an `aplay` subprocess in an infinite loop.

The embedding keeps the source's structure: Python exceptions become an
explicit `PyErr` error type threaded through `Except`; byte strings become
`List Nat` (each entry one byte, < 256); `struct.pack` with the format chains
`<hh`, `>hh`, `<ll`, `>ll` becomes two's-complement little or big endian packing
with the range check `struct` performs; the floating-point sine oracles are
parameters, since only the structure of the sine branches (frame count, frame
width) is reasoned about here, never concrete `math.sin` values.
-/

namespace Miniplay

/-- Exceptions raised by `miniplay.py`, one constructor per raise site (plus
`ioError` for a failed pipe write and `zeroDivisionError` for Python's `%` with
zero modulus). The payloads carry what the corresponding format string
interpolates. -/
inductive PyErr where
  /-- Raised as `ValueError('Invalid rate %d, must be a multiple of %d.')`, miniplay.py line 99. -/
  | invalidRateNotMultiple (rate bitrate : Nat)
  /-- Raised as `ValueError('Too many bits of data.')`, miniplay.py line 103. -/
  | tooManyBits
  /-- Raised as `RuntimeError('Unknown flag: %s')`, miniplay.py line 75. -/
  | unknownFlag (flag : String)
  /-- Raised as `RuntimeError('Too many command-line arguments.')`, miniplay.py line 77. -/
  | tooManyArgs
  /-- Raised as `RuntimeError('Unknown format: %s')`, miniplay.py line 94. -/
  | unknownFormat (format : String)
  /-- Raised as `RuntimeError('Unknown tune: %s')`, miniplay.py line 136. -/
  | unknownTune (tune : String)
  /-- Python `ZeroDivisionError`: `x % 0` raises. -/
  | zeroDivisionError
  /-- Raised as `struct.error` when a value does not fit the requested field width. -/
  | structError (value : Int)
  /-- Failure of `assert len(data) == rate * sbs * 2`, miniplay.py line 137. -/
  | assertionError
  /-- Raised as `IOError`/`OSError` from writing to the sink's closed stdin pipe. -/
  | ioError
  /-- Raised as `RuntimeError('%s failed with exit code %d')`, miniplay.py line 153. -/
  | sinkFailure (cmd : List String) (exitCode : Int)
  deriving DecidableEq, Repr

/-- The spec's ConfigurationError taxonomy (spec section 7): malformed or
contradictory CLI input - unknown flag, leftover arguments, unknown format,
unknown tune, bitrate/rate mismatch, pattern too long. -/
def PyErr.isConfigurationError : PyErr → Bool
  | .invalidRateNotMultiple _ _ => true
  | .tooManyBits => true
  | .unknownFlag _ => true
  | .tooManyArgs => true
  | .unknownFormat _ => true
  | .unknownTune _ => true
  | _ => false

/-- Parameters selected by the format dispatch at miniplay.py lines 85-94:
`fmt` (a `struct` format chain) determines byte order and per-sample byte
width, `maxv` is the amplitude bound used by the generators, `sbs` the
per-sample byte width. Here the `struct` chain is split into `byteWidth`
(2 for `h`, 4 for `l`) and `big` (`>` versus `<`). -/
structure FmtDesc where
  byteWidth : Nat
  big : Bool
  maxv : Int
  deriving DecidableEq, Repr

/-- Parameters `fmt, maxv, sbs = '<hh', 32767, 2` (miniplay.py line 86). -/
def s16le : FmtDesc := ⟨2, false, 32767⟩

/-- Parameters `fmt, maxv, sbs = '>hh', 32767, 2` (miniplay.py line 88). -/
def s16be : FmtDesc := ⟨2, true, 32767⟩

/-- Parameters `fmt, maxv, sbs = '<ll', 2147483647, 4` (miniplay.py line 90). -/
def s32le : FmtDesc := ⟨4, false, 2147483647⟩

/-- Parameters `fmt, maxv, sbs = '>ll', 2147483647, 4` (miniplay.py line 92, the intended
big-endian 32-bit parameters; see `formatParams` for reachability). -/
def s32be : FmtDesc := ⟨4, true, 2147483647⟩

/-- Little-endian base-256 digits of `m`, `w` bytes (least significant first). -/
def packLE : Nat → Nat → List Nat
  | 0, _ => []
  | w + 1, m => m % 256 :: packLE w (m / 256)

/-- Reassemble a little-endian base-256 digit list into a natural number. -/
def unpackLE : List Nat → Nat
  | [] => 0
  | b :: bs => b + 256 * unpackLE bs

/-- One signed sample packed as `struct.pack` packs a single `h` (width 2) or
`l` (width 4) field: values outside the two's-complement range of the field
raise `struct.error`; in range, the value is emitted as `byteWidth` bytes of
its two's-complement representation, least significant byte first for `<` and
most significant first for `>`. -/
def encodeSample (fd : FmtDesc) (n : Int) : Except PyErr (List Nat) :=
  let w := fd.byteWidth
  if n < -(2 ^ (8 * w - 1) : Int) ∨ (2 ^ (8 * w - 1) : Int) ≤ n then
    .error (.structError n)
  else
    let m := (n % (2 ^ (8 * w) : Int)).toNat
    .ok (if fd.big then (packLE w m).reverse else packLE w m)

/-- Inverse of `encodeSample` on well-formed byte lists: reassemble the
unsigned value in the format's byte order, then undo two's complement. -/
def decodeSample (fd : FmtDesc) (bs : List Nat) : Int :=
  let m := unpackLE (if fd.big then bs.reverse else bs)
  if 2 ^ (8 * fd.byteWidth - 1) ≤ m then (m : Int) - 2 ^ (8 * fd.byteWidth)
  else (m : Int)

/-- Model of `struct.pack(fmt, left, right)` for a two-field chain such as `<hh`:
the left sample's bytes followed by the right sample's bytes. -/
def packFrame (fd : FmtDesc) (l r : Int) : Except PyErr (List Nat) := do
  let a ← encodeSample fd l
  let b ← encodeSample fd r
  pure (a ++ b)

/-- Decode a frame byte string back into its (left, right) sample pair. -/
def decodeFrame (fd : FmtDesc) (bs : List Nat) : Int × Int :=
  (decodeSample fd (bs.take fd.byteWidth), decodeSample fd (bs.drop fd.byteWidth))

/-- Python's `s.startswith(p)`. -/
def pyStartswith (s p : String) : Bool := p.toList.isPrefixOf s.toList

/-- Format inference, miniplay.py lines 78-83: an explicit `-f` value is kept
unchanged (`if format is not None: pass`); otherwise device `'dmix'` or a
device starting with `'dmix:'` selects `'S32_LE'`, and any other device
selects `'S16_LE'`. -/
def inferFormat (format : Option String) (device : String) : String :=
  match format with
  | some f => f
  | none => if device = "dmix" ∨ pyStartswith device "dmix:" then "S32_LE" else "S16_LE"

/-- Format dispatch, miniplay.py lines 85-94, including the source's duplicated
condition: the fourth branch tests `format == 'S32_LE'` again (line 91) instead
of `'S32_BE'`, so its `'>ll'` parameters are unreachable and every format name
other than the first three raises `RuntimeError('Unknown format: %s')`. -/
def formatParams (format : String) : Except PyErr FmtDesc :=
  if format = "S16_LE" then .ok s16le
  else if format = "S16_BE" then .ok s16be
  else if format = "S32_LE" then .ok s32le
  else if format = "S32_LE" then .ok s32be
  else .error (.unknownFormat format)

/-- Left-to-right effectful map over `Except`, mirroring how `''.join` drains
the generator expressions in `miniplay.py`: elements are produced in order and
the first raised exception propagates. -/
def exceptMap (f : α → Except PyErr β) : List α → Except PyErr (List β)
  | [] => .ok []
  | x :: xs => do
    let y ← f x
    let ys ← exceptMap f xs
    pure (y :: ys)

/-- Symbol lookup `bits[i % s]` of miniplay.py line 106: Python's `%` raises
`ZeroDivisionError` when `s = 0`; otherwise `i % s` is a valid index. -/
def symbolAt (bits : List Char) (i : Nat) : Except PyErr Char :=
  if bits.length = 0 then .error .zeroDivisionError
  else .ok (bits.getD (i % bits.length) ' ')

/-- Model of `get_data_for_bits(bitrate, bits)`, miniplay.py lines 96-106, with the
enclosing scope's `rate` and format parameters made explicit. Steps in source
order: `rate % bitrate` (raising `ZeroDivisionError` when `bitrate = 0`),
the multiple-of-bitrate check, the `s > bitrate` check, `rss = rate / bitrate`
(Python 2 floor division), the eager packing of the low and high frames
`v01`, then the join over `xrange(bitrate)` where slot `i` contributes
`v01[bits[i % s] not in '0\0'] * rss` - `rss` copies of the low frame when the
symbol is `'0'` or NUL, of the high frame otherwise. -/
def get_data_for_bits (fd : FmtDesc) (rate bitrate : Nat) (bits : List Char) :
    Except PyErr (List Nat) :=
  if bitrate = 0 then .error .zeroDivisionError
  else if rate % bitrate ≠ 0 then .error (.invalidRateNotMultiple rate bitrate)
  else if bits.length > bitrate then .error .tooManyBits
  else do
    let rss := rate / bitrate
    let lo ← packFrame fd (-fd.maxv) (-fd.maxv)
    let hi ← packFrame fd fd.maxv fd.maxv
    let slots ← exceptMap (fun i => do
      let c ← symbolAt bits i
      pure (List.flatten (List.replicate rss
        (if c = '0' ∨ c = Char.ofNat 0 then lo else hi)))) (List.range bitrate)
    pure slots.flatten

/-- One second of per-index stereo frames, the common shape of the four sine
branches at miniplay.py lines 110-129: for each `i` in `xrange(rate)`, pack the
frame `(l i, r i)` and join the byte strings in order. -/
def sineData (fd : FmtDesc) (rate : Nat) (l r : Nat → Int) : Except PyErr (List Nat) :=
  (exceptMap (fun i => packFrame fd (l i) (r i)) (List.range rate)).map List.flatten

/-- Tune dispatch of miniplay.py lines 110-136. The floating-point sample
computations are abstracted into two oracles: `oLow i` stands for
`int(math.sin(i * m / 4) * maxv)` and `oHigh i` for
`int(math.sin(i * m) * maxv)`; the branch structure, the frame layout per
branch, and the `bits:`/`square` paths are taken from the source verbatim
(`tune.split(':', 1)[1]` drops everything through the first colon, which for a
`bits:`-prefixed tune is its first five characters). -/
def tuneData (fd : FmtDesc) (rate : Nat) (tune : String) (oLow oHigh : Nat → Int) :
    Except PyErr (List Nat) :=
  if tune = "sin" ∨ tune = "sine" then sineData fd rate oHigh oHigh
  else if tune = "sinlh" then sineData fd rate oLow oHigh
  else if tune = "sinl" then sineData fd rate oLow (fun _ => 0)
  else if tune = "sinh" then sineData fd rate (fun _ => 0) oHigh
  else if tune = "square" then get_data_for_bits fd rate 1200 ['0', '1']
  else if pyStartswith tune "bits:" then
    get_data_for_bits fd rate 1200 (tune.toList.drop 5)
  else .error (.unknownTune tune)

/-- The hard invariant `assert len(data) == rate * sbs * 2` at miniplay.py
line 137, run on the generated buffer before it is handed to the playback
loop. -/
def assertData (fd : FmtDesc) (rate : Nat) (d : List Nat) : Except PyErr (List Nat) :=
  if d.length = rate * fd.byteWidth * 2 then .ok d else .error .assertionError

/-- Mutable locals of the option loop at miniplay.py lines 49-55, with their
defaults: `device = 'dmix'`, `format = None`, `tune = 'sinlh'`. -/
structure ArgState where
  device : String
  format : Option String
  tune : String
  deriving DecidableEq, Repr

/-- Initial `ArgState` (miniplay.py lines 49-55). -/
def initialArgState : ArgState := ⟨"dmix", none, "sinlh"⟩

/-- Option loop of miniplay.py lines 57-75, recursing on the suffix of `argv`
that starts at index `i`. A bare `-` breaks before `i` is advanced (the `-`
stays unconsumed); `--` breaks after `i` is advanced. Each value-taking flag
`-D`/`-f`/`-T` consumes the next argument when one exists; when the flag is the
last argument, the `and i < len(argv)` guard fails and control falls into the
`else: raise RuntimeError('Unknown flag: %s' % arg)` branch. The result is the
unconsumed suffix at loop exit together with the final state. -/
def parseLoop : List String → ArgState → Except PyErr (List String × ArgState)
  | [], st => .ok ([], st)
  | arg :: rest, st =>
    if arg = "-" then .ok (arg :: rest, st)
    else if arg = "--" then .ok (rest, st)
    else if arg = "-D" then
      match rest with
      | v :: rest2 => parseLoop rest2 { st with device := v }
      | [] => .error (.unknownFlag arg)
    else if arg = "-f" then
      match rest with
      | v :: rest2 => parseLoop rest2 { st with format := some v }
      | [] => .error (.unknownFlag arg)
    else if arg = "-T" then
      match rest with
      | v :: rest2 => parseLoop rest2 { st with tune := v }
      | [] => .error (.unknownFlag arg)
    else .error (.unknownFlag arg)

/-- Argument handling of `main` (miniplay.py lines 57-77) applied to
`argv[1:]` (the loop starts at `i = 1`, skipping the program name): run the
option loop, then `if i != len(argv): raise RuntimeError('Too many
command-line arguments.')` - the loop left a suffix unconsumed exactly when it
hit a break. -/
def parseArgs (args : List String) : Except PyErr ArgState := do
  let (rem, st) ← parseLoop args initialArgState
  if rem ≠ [] then .error .tooManyArgs else pure st

/-- How the unbounded write loop at miniplay.py lines 143-145 can stop. The
loop body is `p.stdin.write(data); p.stdin.flush()` with no break or return,
so it only stops when an iteration raises: a delivered `KeyboardInterrupt`, or
an `IOError`/`OSError` from writing to a pipe whose reader (the sink) has
exited. -/
inductive LoopExit where
  | interrupt
  | writeFailure
  deriving DecidableEq, Repr

/-- Outcome of a Python block: normal completion, a pending
`KeyboardInterrupt`, or a pending exception from the program's own raise
sites. -/
inductive PyResult (α : Type) where
  | ok (a : α)
  | keyboardInterrupt
  | exn (e : PyErr)
  deriving DecidableEq, Repr

/-- Result of `while 1: p.stdin.write(data); p.stdin.flush()` (miniplay.py
lines 143-145): never normal completion, only the pending exception that ended
the loop. -/
def writeLoop : LoopExit → PyResult Unit
  | .interrupt => .keyboardInterrupt
  | .writeFailure => .exn .ioError

/-- The `try ... finally` at miniplay.py lines 142-151 together with the
`if exit_code:` check at lines 152-153. The finally block closes stdin
(ignoring close errors) and waits for the sink, producing `exitCode`; it
raises nothing itself, so a pending exception from the protected block
propagates past it, and the exit-code check - the next statement of the outer
try - runs only when the protected block completed normally. -/
def afterLoop (cmd : List String) (exitCode : Int) : PyResult Unit → PyResult Unit
  | .ok _ => if exitCode ≠ 0 then .exn (.sinkFailure cmd exitCode) else .ok ()
  | .keyboardInterrupt => .keyboardInterrupt
  | .exn e => .exn e

/-- The outer `try ... except KeyboardInterrupt: pass` at miniplay.py
lines 141 and 154-155. -/
def catchInterrupt : PyResult Unit → PyResult Unit
  | .keyboardInterrupt => .ok ()
  | r => r

/-- Playback stage of `main` (miniplay.py lines 139-155) as a function of how
the write loop ended and of the sink's exit status: outer try/except around
the inner try/finally around the unbounded write loop. -/
def play (cmd : List String) (e : LoopExit) (exitCode : Int) : PyResult Unit :=
  catchInterrupt (afterLoop cmd exitCode (writeLoop e))

/-- The sink command line built at miniplay.py line 139. -/
def aplayCmd (device format : String) (rate : Nat) : List String :=
  ["aplay", "-D", device, "-f", format, "-c", "2", "-r", toString rate, "-q"]

/-! Helper lemmas about the embedding. -/

theorem packLE_length (w m : Nat) : (packLE w m).length = w := by
  induction w generalizing m with
  | zero => rfl
  | succ w ih => simp [packLE, ih]

theorem unpackLE_packLE (w m : Nat) : unpackLE (packLE w m) = m % 256 ^ w := by
  induction w generalizing m with
  | zero => simp [packLE, unpackLE, Nat.mod_one]
  | succ w ih =>
    rw [packLE, unpackLE, ih, pow_succ, mul_comm (256 ^ w) 256, Nat.mod_mul]

theorem encodeSample_ok_length (fd : FmtDesc) (n : Int) (bs : List Nat)
    (h : encodeSample fd n = .ok bs) : bs.length = fd.byteWidth := by
  simp only [encodeSample] at h
  split at h
  · exact Except.noConfusion h
  · injection h with h
    subst h
    split <;> simp [packLE_length]

theorem packFrame_ok_decomp (fd : FmtDesc) (l r : Int) (bs : List Nat)
    (h : packFrame fd l r = .ok bs) :
    ∃ a b, encodeSample fd l = .ok a ∧ encodeSample fd r = .ok b ∧ bs = a ++ b := by
  unfold packFrame at h
  cases hl : encodeSample fd l with
  | error e => rw [hl] at h; exact Except.noConfusion h
  | ok a =>
    cases hr : encodeSample fd r with
    | error e => rw [hl, hr] at h; exact Except.noConfusion h
    | ok b =>
      rw [hl, hr] at h
      refine ⟨a, b, rfl, rfl, ?_⟩
      injection h with h
      exact h.symm

theorem packFrame_ok_length (fd : FmtDesc) (l r : Int) (bs : List Nat)
    (h : packFrame fd l r = .ok bs) : bs.length = 2 * fd.byteWidth := by
  obtain ⟨a, b, ha, hb, rfl⟩ := packFrame_ok_decomp fd l r bs h
  have := encodeSample_ok_length fd l a ha
  have := encodeSample_ok_length fd r b hb
  simp [List.length_append, *]
  omega

theorem exceptMap_congr_ok {α β : Type} {f : α → Except PyErr β} {g : α → β}
    {l : List α} (h : ∀ a ∈ l, f a = .ok (g a)) : exceptMap f l = .ok (l.map g) := by
  induction l with
  | nil => rfl
  | cons x xs ih =>
    have hx := h x (List.mem_cons_self x xs)
    have hxs := ih fun a ha => h a (List.mem_cons_of_mem x ha)
    simp only [exceptMap]
    rw [hx, hxs]
    rfl

theorem exceptMap_ok_mem {α β : Type} {f : α → Except PyErr β} :
    ∀ {l : List α} {ys : List β}, exceptMap f l = .ok ys →
      ys.length = l.length ∧ ∀ y ∈ ys, ∃ x ∈ l, f x = .ok y := by
  intro l
  induction l with
  | nil =>
    intro ys h
    injection h with h
    subst h
    simp
  | cons x xs ih =>
    intro ys h
    simp only [exceptMap] at h
    cases hx : f x with
    | error e => rw [hx] at h; exact Except.noConfusion h
    | ok y =>
      rw [hx] at h
      cases hxs : exceptMap f xs with
      | error e => rw [hxs] at h; exact Except.noConfusion h
      | ok zs =>
        rw [hxs] at h
        injection h with h
        subst h
        obtain ⟨hlen, hmem⟩ := ih hxs
        refine ⟨by simp [hlen], ?_⟩
        intro z hz
        rcases List.mem_cons.mp hz with hz | hz
        · exact ⟨x, List.mem_cons_self x xs, hz ▸ hx⟩
        · obtain ⟨a, ha, hfa⟩ := hmem z hz
          exact ⟨a, List.mem_cons_of_mem x ha, hfa⟩

theorem exceptMap_error_mem {α β : Type} {f : α → Except PyErr β} :
    ∀ {l : List α} {e : PyErr}, exceptMap f l = .error e → ∃ x ∈ l, f x = .error e := by
  intro l
  induction l with
  | nil => intro e h; exact Except.noConfusion h
  | cons x xs ih =>
    intro e h
    simp only [exceptMap] at h
    cases hx : f x with
    | error e2 =>
      rw [hx] at h
      injection h with h
      exact ⟨x, List.mem_cons_self x xs, h ▸ hx⟩
    | ok y =>
      rw [hx] at h
      cases hxs : exceptMap f xs with
      | error e2 =>
        rw [hxs] at h
        injection h with h
        obtain ⟨a, ha, hfa⟩ := ih (h ▸ hxs)
        exact ⟨a, List.mem_cons_of_mem x ha, hfa⟩
      | ok zs => rw [hxs] at h; exact Except.noConfusion h

theorem flatten_length_const {K : Nat} :
    ∀ {ys : List (List Nat)}, (∀ y ∈ ys, y.length = K) →
      ys.flatten.length = ys.length * K := by
  intro ys
  induction ys with
  | nil => intro; simp
  | cons y ys ih =>
    intro h
    have hy := h y (List.mem_cons_self y ys)
    have hys := ih fun a ha => h a (List.mem_cons_of_mem y ha)
    simp [List.flatten_cons, hy, hys, Nat.succ_mul, Nat.add_comm]

theorem except_ok_bind {α β : Type} (a : α) (f : α → Except PyErr β) :
    (Except.ok a >>= f) = f a := rfl

theorem except_error_bind {α β : Type} (e : PyErr) (f : α → Except PyErr β) :
    ((Except.error e : Except PyErr α) >>= f) = .error e := rfl

theorem encodeSample_error_shape (fd : FmtDesc) (n : Int) (e : PyErr)
    (h : encodeSample fd n = .error e) : e = .structError n := by
  simp only [encodeSample] at h
  split at h
  · injection h with h
    exact h.symm
  · exact Except.noConfusion h

theorem packFrame_error_shape (fd : FmtDesc) (l r : Int) (e : PyErr)
    (h : packFrame fd l r = .error e) : e = .structError l ∨ e = .structError r := by
  unfold packFrame at h
  cases hl : encodeSample fd l with
  | error e2 =>
    rw [hl] at h
    injection h with h
    exact Or.inl (by rw [← h]; exact encodeSample_error_shape fd l e2 hl)
  | ok a =>
    cases hr : encodeSample fd r with
    | error e2 =>
      rw [hl, hr] at h
      injection h with h
      exact Or.inr (by rw [← h]; exact encodeSample_error_shape fd r e2 hr)
    | ok b =>
      rw [hl, hr] at h
      exact Except.noConfusion h

theorem symbolAt_error_shape (bits : List Char) (i : Nat) (e : PyErr)
    (h : symbolAt bits i = .error e) : e = .zeroDivisionError := by
  simp only [symbolAt] at h
  split at h
  · injection h with h
    exact h.symm
  · exact Except.noConfusion h

/-- Once the two length checks of `get_data_for_bits` pass, any remaining
failure is a `struct.error` from packing or the `ZeroDivisionError` of the
symbol lookup - never a ConfigurationError. -/
theorem gdb_error_not_config (fd : FmtDesc) (rate bitrate : Nat) (bits : List Char)
    (hb : ¬ bitrate = 0) (h0 : rate % bitrate = 0) (h1 : ¬ bits.length > bitrate)
    (e : PyErr) (he : get_data_for_bits fd rate bitrate bits = .error e) :
    e.isConfigurationError = false := by
  simp only [get_data_for_bits] at he
  rw [if_neg hb, if_neg (not_not_intro h0), if_neg h1] at he
  cases hlo : packFrame fd (-fd.maxv) (-fd.maxv) with
  | error e2 =>
    rw [hlo] at he
    injection he with he
    rcases packFrame_error_shape _ _ _ _ hlo with h2 | h2 <;>
      rw [← he, h2] <;> rfl
  | ok lo =>
    cases hhi : packFrame fd fd.maxv fd.maxv with
    | error e2 =>
      rw [hlo, hhi] at he
      injection he with he
      rcases packFrame_error_shape _ _ _ _ hhi with h2 | h2 <;>
        rw [← he, h2] <;> rfl
    | ok hi =>
      rw [hlo, hhi] at he
      simp only [except_ok_bind] at he
      cases hsl : exceptMap (fun i => do
          let c ← symbolAt bits i
          pure (List.flatten (List.replicate (rate / bitrate)
            (if c = '0' ∨ c = Char.ofNat 0 then lo else hi)))) (List.range bitrate) with
      | error e2 =>
        rw [hsl] at he
        injection he with he
        obtain ⟨i, _, hfi⟩ := exceptMap_error_mem hsl
        cases hs : symbolAt bits i with
        | error e3 =>
          rw [hs] at hfi
          injection hfi with hfi
          rw [← he, ← hfi, symbolAt_error_shape _ _ _ hs]
          rfl
        | ok c =>
          rw [hs] at hfi
          exact Except.noConfusion hfi
      | ok slots =>
        rw [hsl] at he
        exact Except.noConfusion he

/-- A successful `get_data_for_bits` buffer has exactly one second's worth of
bytes: `rate` frames of `2` samples of `byteWidth` bytes. -/
theorem gdb_ok_length (fd : FmtDesc) (rate bitrate : Nat) (bits : List Char) (d : List Nat)
    (h : get_data_for_bits fd rate bitrate bits = .ok d) :
    d.length = rate * fd.byteWidth * 2 := by
  simp only [get_data_for_bits] at h
  split at h
  · exact Except.noConfusion h
  · split at h
    · exact Except.noConfusion h
    · split at h
      · exact Except.noConfusion h
      · rename_i hb h0 h1
        cases hlo : packFrame fd (-fd.maxv) (-fd.maxv) with
        | error e => rw [hlo] at h; exact Except.noConfusion h
        | ok lo =>
          cases hhi : packFrame fd fd.maxv fd.maxv with
          | error e => rw [hlo, hhi] at h; exact Except.noConfusion h
          | ok hi =>
            rw [hlo, hhi] at h
            simp only [except_ok_bind] at h
            cases hsl : exceptMap (fun i => do
                let c ← symbolAt bits i
                pure (List.flatten (List.replicate (rate / bitrate)
                  (if c = '0' ∨ c = Char.ofNat 0 then lo else hi)))) (List.range bitrate) with
            | error e => rw [hsl] at h; exact Except.noConfusion h
            | ok slots =>
              rw [hsl] at h
              injection h with h
              obtain ⟨hlen, hmem⟩ := exceptMap_ok_mem hsl
              have hslot : ∀ y ∈ slots, y.length = rate / bitrate * (2 * fd.byteWidth) := by
                intro y hy
                obtain ⟨i, _, hfi⟩ := hmem y hy
                cases hs : symbolAt bits i with
                | error e => rw [hs] at hfi; exact Except.noConfusion hfi
                | ok c =>
                  rw [hs] at hfi
                  injection hfi with hfi
                  have hX : (if c = '0' ∨ c = Char.ofNat 0 then lo else hi).length =
                      2 * fd.byteWidth := by
                    split
                    · exact packFrame_ok_length _ _ _ _ hlo
                    · exact packFrame_ok_length _ _ _ _ hhi
                  rw [← hfi]
                  simp [List.length_flatten, List.map_replicate, List.sum_replicate,
                    smul_eq_mul, hX]
              have hdvd : bitrate * (rate / bitrate) = rate :=
                Nat.mul_div_cancel' (Nat.dvd_of_mod_eq_zero (by omega))
              rw [← h, flatten_length_const hslot, hlen, List.length_range]
              calc bitrate * (rate / bitrate * (2 * fd.byteWidth))
                  = bitrate * (rate / bitrate) * (2 * fd.byteWidth) := by ring
                _ = rate * (2 * fd.byteWidth) := by rw [hdvd]
                _ = rate * fd.byteWidth * 2 := by ring

/-- A successful sine-family buffer has exactly `rate` frames of
`2 * byteWidth` bytes. -/
theorem sineData_ok_length (fd : FmtDesc) (rate : Nat) (l r : Nat → Int) (d : List Nat)
    (h : sineData fd rate l r = .ok d) : d.length = rate * fd.byteWidth * 2 := by
  unfold sineData at h
  cases hm : exceptMap (fun i => packFrame fd (l i) (r i)) (List.range rate) with
  | error e => rw [hm] at h; exact Except.noConfusion h
  | ok ys =>
    rw [hm] at h
    injection h with h
    obtain ⟨hlen, hmem⟩ := exceptMap_ok_mem hm
    have hy : ∀ y ∈ ys, y.length = 2 * fd.byteWidth := by
      intro y hy
      obtain ⟨i, _, hfi⟩ := hmem y hy
      exact packFrame_ok_length _ _ _ _ hfi
    rw [← h, flatten_length_const hy, hlen, List.length_range]
    ring

/-- Reducing `n ∈ [-B, B)` modulo `2B` and subtracting `2B` back when the
result reaches `B` recovers `n` - the core law behind two's-complement
packing over a half-range bound `B`. -/
theorem twos_complement_core (B : Int) (hBpos : 0 < B) (K : Nat) (hK : (K : Int) = B)
    (n : Int) (h1 : -B ≤ n) (h2 : n < B) :
    (if K ≤ (n % (2 * B)).toNat then ((n % (2 * B)).toNat : Int) - 2 * B
     else ((n % (2 * B)).toNat : Int)) = n := by
  have h2B : (0 : Int) < 2 * B := by omega
  have hM0 : 0 ≤ n % (2 * B) := Int.emod_nonneg n h2B.ne'
  have hMlt : n % (2 * B) < 2 * B := Int.emod_lt_of_pos n h2B
  rcases le_or_lt 0 n with hn | hn
  · have hMeq : n % (2 * B) = n := Int.emod_eq_of_lt hn (by omega)
    split <;> omega
  · have hMeq : n % (2 * B) = n + 2 * B := by
      have hself : (n + 2 * B * 1) % (2 * B) = n % (2 * B) :=
        Int.add_mul_emod_self_left n (2 * B) 1
      rw [mul_one] at hself
      rw [← hself]
      exact Int.emod_eq_of_lt (by omega) (by omega)
    split <;> omega

/-- Round trip of a single sample: a value inside the two's-complement range
of the format's field width encodes successfully into `byteWidth` bytes, and
decoding those bytes with the same width and byte order recovers the value. -/
theorem encodeSample_roundtrip (fd : FmtDesc) (hw : 1 ≤ fd.byteWidth) (n : Int)
    (h1 : -(2 ^ (8 * fd.byteWidth - 1) : Int) ≤ n)
    (h2 : n < (2 ^ (8 * fd.byteWidth - 1) : Int)) :
    ∃ bs, encodeSample fd n = .ok bs ∧ bs.length = fd.byteWidth ∧
      decodeSample fd bs = n := by
  have hguard : ¬(n < -(2 ^ (8 * fd.byteWidth - 1) : Int) ∨
      (2 ^ (8 * fd.byteWidth - 1) : Int) ≤ n) := by
    push_neg
    exact ⟨h1, h2⟩
  have hBB : (2 : Int) ^ (8 * fd.byteWidth) = 2 * 2 ^ (8 * fd.byteWidth - 1) := by
    rw [← pow_succ']
    congr 1
    omega
  have h256 : (256 : Nat) ^ fd.byteWidth = 2 ^ (8 * fd.byteWidth) := by
    rw [show (256 : Nat) = 2 ^ 8 from rfl, ← pow_mul]
  have hcast : ((2 ^ (8 * fd.byteWidth) : Nat) : Int) = (2 : Int) ^ (8 * fd.byteWidth) := by
    push_cast
    rfl
  set M : Int := n % (2 : Int) ^ (8 * fd.byteWidth) with hMdef
  have hpos : (0 : Int) < 2 ^ (8 * fd.byteWidth) := by positivity
  have hM0 : 0 ≤ M := Int.emod_nonneg n hpos.ne'
  have hMlt : M < 2 ^ (8 * fd.byteWidth) := Int.emod_lt_of_pos n hpos
  have hMnat : M.toNat < 256 ^ fd.byteWidth := by
    rw [h256]
    omega
  have hunpack : unpackLE (packLE fd.byteWidth M.toNat) = M.toNat := by
    rw [unpackLE_packLE, Nat.mod_eq_of_lt hMnat]
  have hcore := twos_complement_core (2 ^ (8 * fd.byteWidth - 1)) (by positivity)
    (2 ^ (8 * fd.byteWidth - 1)) (by push_cast; rfl) n h1 h2
  rw [← hBB] at hcore
  rw [← hMdef] at hcore
  refine ⟨if fd.big then (packLE fd.byteWidth M.toNat).reverse
          else packLE fd.byteWidth M.toNat, ?_, ?_, ?_⟩
  · simp only [encodeSample]
    rw [if_neg hguard]
  · split <;> simp [packLE_length]
  · simp only [decodeSample]
    cases hb : fd.big <;> simp only [hb, Bool.false_eq_true, if_false, if_true,
      List.reverse_reverse] <;> rw [hunpack] <;> exact hcore

/-! Claim theorems. -/

/-- C3: at the bitrate 1200 used by both call sites, `get_data_for_bits`
fails with a ConfigurationError exactly when the rate is not a multiple of the
bitrate or the pattern is longer than the bitrate; the rate mismatch raises
the invalid-rate error, the over-long pattern the too-many-bits error, and
when both preconditions hold neither ConfigurationError is raised. -/
theorem claim3_bit_pattern_config_errors (fd : FmtDesc) (rate : Nat) (bits : List Char) :
    ((∃ e, get_data_for_bits fd rate 1200 bits = .error e ∧ e.isConfigurationError = true) ↔
      (rate % 1200 ≠ 0 ∨ 1200 < bits.length)) ∧
    (rate % 1200 ≠ 0 →
      get_data_for_bits fd rate 1200 bits = .error (.invalidRateNotMultiple rate 1200)) ∧
    (rate % 1200 = 0 → 1200 < bits.length →
      get_data_for_bits fd rate 1200 bits = .error .tooManyBits) := by
  have h1 : rate % 1200 ≠ 0 →
      get_data_for_bits fd rate 1200 bits = .error (.invalidRateNotMultiple rate 1200) := by
    intro h
    simp only [get_data_for_bits]
    rw [if_neg (by decide), if_pos h]
  have h2 : rate % 1200 = 0 → 1200 < bits.length →
      get_data_for_bits fd rate 1200 bits = .error .tooManyBits := by
    intro h h'
    simp only [get_data_for_bits]
    rw [if_neg (by decide), if_neg (not_not_intro h), if_pos h']
  refine ⟨⟨?_, ?_⟩, h1, h2⟩
  · rintro ⟨e, he, hce⟩
    by_contra hcon
    push_neg at hcon
    obtain ⟨ha, hb⟩ := hcon
    have := gdb_error_not_config fd rate 1200 bits (by decide) ha (by omega) e he
    rw [hce] at this
    exact Bool.noConfusion this
  · rintro (h | h)
    · exact ⟨_, h1 h, rfl⟩
    · by_cases h0 : rate % 1200 = 0
      · exact ⟨_, h2 h0 h, rfl⟩
      · exact ⟨_, h1 h0, rfl⟩

/-- Witness for C3: rate 48001 (not a multiple of 1200) raises the
invalid-rate error, and a 1201-symbol pattern raises the too-many-bits
error. -/
theorem claim3_bit_pattern_config_errors_witness :
    get_data_for_bits s16le 48001 1200 ['0'] = .error (.invalidRateNotMultiple 48001 1200) ∧
    get_data_for_bits s16le 48000 1200 (List.replicate 1201 '1') = .error .tooManyBits :=
  ⟨(claim3_bit_pattern_config_errors s16le 48001 ['0']).2.1 (by decide),
   (claim3_bit_pattern_config_errors s16le 48000 (List.replicate 1201 '1')).2.2
     (by decide) (by rw [List.length_replicate]; decide)⟩

/-- C1: every tune for which generation succeeds yields a buffer of exactly
`rate × byteWidth × 2` bytes (one second of stereo frames), and the hard
assertion at miniplay.py line 137 accepts exactly that length, so a violating
length would never be silently accepted. -/
theorem claim1_generated_buffer_length (fd : FmtDesc) (rate : Nat) (tune : String)
    (oLow oHigh : Nat → Int) (d : List Nat)
    (h : tuneData fd rate tune oLow oHigh = .ok d) :
    d.length = rate * fd.byteWidth * 2 ∧ assertData fd rate d = .ok d := by
  have hl : d.length = rate * fd.byteWidth * 2 := by
    simp only [tuneData] at h
    split at h
    · exact sineData_ok_length _ _ _ _ _ h
    · split at h
      · exact sineData_ok_length _ _ _ _ _ h
      · split at h
        · exact sineData_ok_length _ _ _ _ _ h
        · split at h
          · exact sineData_ok_length _ _ _ _ _ h
          · split at h
            · exact gdb_ok_length _ _ _ _ _ h
            · split at h
              · exact gdb_ok_length _ _ _ _ _ h
              · exact Except.noConfusion h
  exact ⟨hl, by simp [assertData, hl]⟩

/-- Witness for C1: the `sin` tune at rate 2 with the zero sine oracle yields
the eight-byte buffer of two silent `S16_LE` frames, which has length
`2 × 2 × 2` and passes the assertion. -/
theorem claim1_generated_buffer_length_witness :
    ([0, 0, 0, 0, 0, 0, 0, 0] : List Nat).length = 2 * s16le.byteWidth * 2 ∧
    assertData s16le 2 [0, 0, 0, 0, 0, 0, 0, 0] = .ok [0, 0, 0, 0, 0, 0, 0, 0] :=
  claim1_generated_buffer_length s16le 2 "sin" (fun _ => 0) (fun _ => 0) _ rfl

/-- C2: for pattern `01` at bitrate 1200 and rate 48000, the generated buffer
is exactly 1200 symbol slots in order, slot `i` using symbol `i mod 2`; each
slot is 40 copies of one frame, the `(-maxv, -maxv)` frame for symbol `'0'`
(even slots) and the `(+maxv, +maxv)` frame for symbol `'1'` (odd slots), so
40 low frames alternate with 40 high frames. -/
theorem claim2_bit_pattern_layout (fd : FmtDesc) (lo hi : List Nat)
    (hlo : packFrame fd (-fd.maxv) (-fd.maxv) = .ok lo)
    (hhi : packFrame fd fd.maxv fd.maxv = .ok hi) :
    get_data_for_bits fd 48000 1200 ['0', '1'] = .ok
      (((List.range 1200).map fun i =>
        (List.replicate 40 (if i % 2 = 0 then lo else hi)).flatten).flatten) := by
  simp only [get_data_for_bits]
  rw [if_neg (by decide), if_neg (by decide), if_neg (by decide)]
  rw [hlo, hhi]
  simp only [except_ok_bind]
  have hmap : exceptMap (fun i => do
      let c ← symbolAt ['0', '1'] i
      pure (List.flatten (List.replicate (48000 / 1200)
        (if c = '0' ∨ c = Char.ofNat 0 then lo else hi)))) (List.range 1200) =
      .ok ((List.range 1200).map fun i =>
        (List.replicate 40 (if i % 2 = 0 then lo else hi)).flatten) := by
    apply exceptMap_congr_ok
    intro i _
    have hs : symbolAt ['0', '1'] i = .ok (['0', '1'].getD (i % 2) ' ') := by
      simp [symbolAt]
    rw [hs, except_ok_bind]
    rcases Nat.mod_two_eq_zero_or_one i with h | h <;> rw [h] <;> simp <;> rfl
  rw [hmap, except_ok_bind]
  rfl

/-- Witness for C2 at format `S16_LE`: the low frame is `[1, 128, 1, 128]`
(two little-endian copies of -32767) and the high frame `[255, 127, 255, 127]`
(two copies of 32767). -/
theorem claim2_bit_pattern_layout_witness :
    get_data_for_bits s16le 48000 1200 ['0', '1'] = .ok
      (((List.range 1200).map fun i =>
        (List.replicate 40 (if i % 2 = 0 then [1, 128, 1, 128] else [255, 127, 255, 127])).flatten).flatten) :=
  claim2_bit_pattern_layout s16le [1, 128, 1, 128] [255, 127, 255, 127] rfl rfl

/-- C4: with no explicit format, device `dmix` or any device starting with
`dmix:` infers `S32_LE` and every other device infers `S16_LE`; with an
explicit format, the device has no influence on the chosen format. -/
theorem claim4_format_inference (device f : String) :
    ((device = "dmix" ∨ pyStartswith device "dmix:" = true) →
      inferFormat none device = "S32_LE") ∧
    (¬(device = "dmix" ∨ pyStartswith device "dmix:" = true) →
      inferFormat none device = "S16_LE") ∧
    inferFormat (some f) device = f := by
  refine ⟨?_, ?_, rfl⟩ <;> intro h <;> simp [inferFormat, h]

/-- Witness for C4 at concrete devices: a `dmix:`-prefixed device infers
`S32_LE`, device `default` infers `S16_LE`, and an explicit format overrides
the device. -/
theorem claim4_format_inference_witness :
    inferFormat none "dmix:CARD=0,DEV=0" = "S32_LE" ∧
    inferFormat none "default" = "S16_LE" ∧
    inferFormat (some "S16_BE") "dmix" = "S16_BE" :=
  ⟨(claim4_format_inference "dmix:CARD=0,DEV=0" "x").1 (by decide),
   (claim4_format_inference "default" "x").2.1 (by decide),
   (claim4_format_inference "dmix" "S16_BE").2.2⟩

/-- C5: the format dispatch accepts `S16_LE`, `S16_BE` and `S32_LE` with their
documented parameters, but rejects `S32_BE` with the unknown-format error: the
fourth branch of the source repeats the condition `format == 'S32_LE'`
(miniplay.py line 91), so the big-endian 32-bit parameters are unreachable. -/
theorem claim5_s32be_unreachable :
    formatParams "S16_LE" = .ok s16le ∧ formatParams "S16_BE" = .ok s16be ∧
    formatParams "S32_LE" = .ok s32le ∧
    formatParams "S32_BE" = .error (.unknownFormat "S32_BE") :=
  ⟨rfl, rfl, rfl, rfl⟩

/-- C7: for every supported format descriptor and every amplitude pair within
`[-maxv, maxv]`, the frame encoder succeeds with a byte sequence of exactly
`2 × byteWidth` bytes, and decoding it back with the same width and byte
order reproduces the pair exactly. -/
theorem claim7_frame_roundtrip (fd : FmtDesc)
    (hfd : fd = s16le ∨ fd = s16be ∨ fd = s32le ∨ fd = s32be)
    (l r : Int) (hl1 : -fd.maxv ≤ l) (hl2 : l ≤ fd.maxv)
    (hr1 : -fd.maxv ≤ r) (hr2 : r ≤ fd.maxv) :
    ∃ bs, packFrame fd l r = .ok bs ∧ bs.length = 2 * fd.byteWidth ∧
      decodeFrame fd bs = (l, r) := by
  have hw : 1 ≤ fd.byteWidth := by
    rcases hfd with rfl | rfl | rfl | rfl <;> norm_num [s16le, s16be, s32le, s32be]
  have hbound : fd.maxv < 2 ^ (8 * fd.byteWidth - 1) ∧
      -(2 ^ (8 * fd.byteWidth - 1) : Int) ≤ -fd.maxv := by
    rcases hfd with rfl | rfl | rfl | rfl <;>
      constructor <;> norm_num [s16le, s16be, s32le, s32be]
  obtain ⟨a, hea, hlena, hdeca⟩ :=
    encodeSample_roundtrip fd hw l (le_trans hbound.2 hl1) (lt_of_le_of_lt hl2 hbound.1)
  obtain ⟨b, heb, hlenb, hdecb⟩ :=
    encodeSample_roundtrip fd hw r (le_trans hbound.2 hr1) (lt_of_le_of_lt hr2 hbound.1)
  refine ⟨a ++ b, ?_, ?_, ?_⟩
  · unfold packFrame
    rw [hea, heb]
    rfl
  · rw [List.length_append, hlena, hlenb]
    omega
  · unfold decodeFrame
    rw [show (a ++ b).take fd.byteWidth = a from by rw [← hlena]; exact List.take_left a b,
      show (a ++ b).drop fd.byteWidth = b from by rw [← hlena]; exact List.drop_left a b,
      hdeca, hdecb]

/-- Witness for C7 at `S16_LE` with the pair `(-2, 3)`: the encoding is the
four bytes `[254, 255, 3, 0]` and decoding them recovers `(-2, 3)`. -/
theorem claim7_frame_roundtrip_witness :
    packFrame s16le (-2) 3 = .ok [254, 255, 3, 0] ∧
    decodeFrame s16le [254, 255, 3, 0] = (-2, 3) := by
  obtain ⟨bs, h1, h2, h3⟩ := claim7_frame_roundtrip s16le (Or.inl rfl) (-2) 3
    (by norm_num [s16le]) (by norm_num [s16le]) (by norm_num [s16le]) (by norm_num [s16le])
  have h0 : packFrame s16le (-2) 3 = .ok [254, 255, 3, 0] := rfl
  rw [h0] at h1
  injection h1 with h1
  rw [← h1] at h3
  exact ⟨h0, h3⟩

/-- C8: when the write loop ends with a pipe write failure (the sink died),
the pending `IOError` propagates out of `main`; the sink-failure raise at
miniplay.py line 153 is unreachable, because the `while 1` loop never
completes normally, whatever the sink's exit code. An interrupt is swallowed
and the run ends normally. -/
theorem claim8_write_failure_propagates_ioerror (cmd : List String) (c : Int) :
    play cmd .writeFailure c = .exn .ioError ∧ play cmd .interrupt c = .ok () :=
  ⟨rfl, rfl⟩

set_option maxRecDepth 8000 in
/-- C9: for the empty bit pattern at the default rate and bitrate, both length
checks pass and the symbol lookup `bits[i % s]` raises `ZeroDivisionError`,
which is not a ConfigurationError. -/
theorem claim9_empty_pattern_division_by_zero :
    get_data_for_bits s16le 48000 1200 [] = .error .zeroDivisionError ∧
    PyErr.zeroDivisionError.isConfigurationError = false :=
  ⟨rfl, rfl⟩

/-- C10: a value-taking flag (`-D`, `-f`, `-T`) appearing as the final
argument with no value after it makes the option loop take its `else` branch
and fail with the unknown-flag error naming that flag, both at the loop level
(any state, the flag being the last unprocessed argument) and end to end. -/
theorem claim10_trailing_flag_reported_unknown (st : ArgState) :
    parseLoop ["-D"] st = .error (.unknownFlag "-D") ∧
    parseLoop ["-f"] st = .error (.unknownFlag "-f") ∧
    parseLoop ["-T"] st = .error (.unknownFlag "-T") ∧
    parseArgs ["-D", "default", "-T"] = .error (.unknownFlag "-T") :=
  ⟨rfl, rfl, rfl, rfl⟩

end Miniplay
